import Mathlib

set_option maxRecDepth 8192

/-!
Verification development for the npm-git-hooks repository.

The repository dispatches git-hook tasks over the packages of a monorepo.
It contains three variants of the dispatcher (src/src/main.js,
src/src/npm-git-hooks.js and an unnamed older one-pass variant), shared
utilities (lib/utils.js contains scandir and buildFilePattern) and error
handlers (lib/handlers.js: two concatenated historical modules; the second
set of definitions is the one exported at runtime).

All definitions below are shallow embeddings translated from the JavaScript
source.  External runtime behaviour that the source relies on is modelled
explicitly and is documented where it appears:
  - shelljs exec: the synchronous form returns a result object carrying the
    exit code and does not raise on a non-zero exit status (shelljs default
    config.fatal = false); the asynchronous form reports the code to its
    callback.  Both are modelled by a ShellEnv of exit codes plus a flag for
    genuinely thrown exceptions (for example a failing process.chdir).
  - JavaScript property access on a missing key yields undefined; a further
    property access or method call on undefined throws a TypeError.  Fields
    that the manifests may omit are modelled as Option, and the dispatcher
    models the TypeError paths exactly where the source performs such an
    access.
  - new RegExp / RegExp.test / RegExp.exec: modelled by the small regex
    engine below (Brzozowski derivatives) for the subset of JavaScript
    regular expression features that the repository can produce: literals,
    escapes, the dot, the classes for whitespace, digit and word characters,
    grouping, alternation, the quantifiers, an optional leading start
    anchor, the ignore-case flag and unanchored searching.  Constructs
    outside the subset make the parser fail, which corresponds to the
    SyntaxError thrown by new RegExp on malformed input.
-/

namespace NpmGitHooks

/-- Decidable equality on Except, used to evaluate the models at concrete
inputs. -/
instance {ε α : Type} [DecidableEq ε] [DecidableEq α] : DecidableEq (Except ε α) := fun a b =>
  match a, b with
  | .error e1, .error e2 =>
    if h : e1 = e2 then .isTrue (by rw [h]) else .isFalse (by intro hh; cases hh; exact h rfl)
  | .error _, .ok _ => .isFalse (by intro hh; cases hh)
  | .ok _, .error _ => .isFalse (by intro hh; cases hh)
  | .ok a1, .ok a2 =>
    if h : a1 = a2 then .isTrue (by rw [h]) else .isFalse (by intro hh; cases hh; exact h rfl)

/-! ## A JavaScript regular-expression engine for the subset the code builds -/

/-- Character classes appearing in the patterns the repository builds. -/
inductive ClsKind
  | ws
  | digit
  | word
deriving DecidableEq, Repr

/-- Regular expressions, as produced by parsing a JavaScript pattern string. -/
inductive Regex
  | emp
  | eps
  | chr (c : Char)
  | anyc
  | cls (k : ClsKind)
  | alt (a b : Regex)
  | cat (a b : Regex)
  | star (a : Regex)
deriving DecidableEq, Repr

/-- Smart alternation keeping derivative sizes small (same language). -/
def altS : Regex → Regex → Regex
  | .emp, b => b
  | a, .emp => a
  | a, b => .alt a b

/-- Smart concatenation keeping derivative sizes small (same language). -/
def catS : Regex → Regex → Regex
  | .emp, _ => .emp
  | _, .emp => .emp
  | .eps, b => b
  | a, .eps => a
  | a, b => .cat a b

/-- Does the regex accept the empty string. -/
def nullable : Regex → Bool
  | .emp => false
  | .eps => true
  | .chr _ => false
  | .anyc => false
  | .cls _ => false
  | .alt a b => nullable a || nullable b
  | .cat a b => nullable a && nullable b
  | .star _ => true

/-- Membership in a character class (the inputs here are ASCII paths). -/
def clsMatches : ClsKind → Char → Bool
  | .ws, c => c == ' ' || c == '\t' || c == '\n' || c == '\r'
  | .digit, c => c.isDigit
  | .word, c => c.isAlphanum || c == '_'

/-- Literal character comparison, optionally ignoring case (the i flag). -/
def chrMatches (ic : Bool) (p c : Char) : Bool :=
  if ic then p.toLower == c.toLower else p == c

/-- Brzozowski derivative with respect to one input character. -/
def deriv (ic : Bool) (c : Char) : Regex → Regex
  | .emp => .emp
  | .eps => .emp
  | .chr p => if chrMatches ic p c then .eps else .emp
  | .anyc => if c == '\n' then .emp else .eps
  | .cls k => if clsMatches k c then .eps else .emp
  | .alt a b => altS (deriv ic c a) (deriv ic c b)
  | .cat a b =>
    if nullable a then altS (catS (deriv ic c a) b) (deriv ic c b)
    else catS (deriv ic c a) b
  | .star a => catS (deriv ic c a) (.star a)

/-- Does the regex match some prefix of the input starting at this position. -/
def matchFromHere (ic : Bool) (r : Regex) : List Char → Bool
  | [] => nullable r
  | c :: cs => nullable r || matchFromHere ic (deriv ic c r) cs

/-- Unanchored search, the semantics of RegExp.exec and RegExp.test:
does the regex match starting at some position of the input. -/
def reSearch (ic : Bool) (r : Regex) : List Char → Bool
  | [] => nullable r
  | c :: cs => matchFromHere ic r (c :: cs) || reSearch ic r cs

/-- A parsed pattern: a regex plus whether the pattern began with the start
anchor (treated specially because the embedding keeps assertions out of the
regex type). -/
structure ParsedRegex where
  anchored : Bool
  r : Regex
deriving DecidableEq, Repr

/-- Apply one quantifier character to an atom. -/
def applyQuant (r : Regex) (q : Char) : Regex :=
  if q == '+' then .cat r (.star r)
  else if q == '*' then .star r
  else .alt .eps r

/-- Parse one escape sequence body.  Escapes outside the supported subset
make construction fail, as new RegExp would on genuinely invalid input. -/
def escAtom (c : Char) : Except Unit Regex :=
  if c == 's' then .ok (.cls .ws)
  else if c == 'd' then .ok (.cls .digit)
  else if c == 'w' then .ok (.cls .word)
  else if c == 'S' || c == 'D' || c == 'W' || c == 'b' || c == 'B' then .error ()
  else .ok (.chr c)

/-- Is this character a quantifier. -/
def isQuantChar (c : Char) : Bool :=
  c == '+' || c == '*' || c == '?'

/-- After parsing an atom, consume at most one quantifier and an optional
laziness marker; a quantifier applied to a quantifier is a syntax error in
JavaScript ("nothing to repeat"). -/
def parseQuant (a : Regex) (cs : List Char) : Except Unit (Regex × List Char) :=
  match cs with
  | [] => .ok (a, [])
  | q :: rest =>
    if isQuantChar q then
      let r := applyQuant a q
      match rest with
      | [] => .ok (r, [])
      | l :: rest2 =>
        if l == '?' then
          match rest2 with
          | [] => .ok (r, [])
          | m :: _ => if isQuantChar m then .error () else .ok (r, rest2)
        else if l == '+' || l == '*' then .error ()
        else .ok (r, rest)
    else .ok (a, cs)

/-- Characters that cannot start an atom in the supported subset; a
quantifier here is the JavaScript "nothing to repeat" error, the rest are
unsupported constructs on which construction fails. -/
def badAtomStart (c : Char) : Bool :=
  isQuantChar c || c == '^' || c == '$' || c == '[' || c == ']' ||
  c == '\x7b' || c == '\x7d' || c == ')' || c == '|'

/-- The grammar production being parsed: an alternation, a concatenation,
one quantified item or one atom. -/
inductive PMode
  | modeAlt
  | modeSeq
  | modeItem
  | modeAtom
deriving DecidableEq

/-- The recursive-descent parser, written as one function structurally
recursive on a fuel that strictly dominates the recursion depth (every
recursive call consumes fuel, and parseRegex supplies far more fuel than
the pattern length can demand).

The productions: an alternation is a sequence, optionally followed by a
bar and another alternation; a sequence concatenates items until the end,
a closing parenthesis or a bar; an item is an atom with its quantifiers;
an atom is an escape, a group (plain or non-capturing), the dot or a
literal character.  An unterminated group is the SyntaxError new RegExp
raises on the patterns this repository can build from folder names
containing parentheses. -/
def parseF : Nat → PMode → List Char → Except Unit (Regex × List Char)
  | 0, _, _ => .error ()
  | n + 1, .modeAlt, cs =>
    match parseF n .modeSeq cs with
    | .error e => .error e
    | .ok (a, rest) =>
      match rest with
      | '|' :: rest2 =>
        match parseF n .modeAlt rest2 with
        | .error e => .error e
        | .ok (b, rest3) => .ok (.alt a b, rest3)
      | _ => .ok (a, rest)
  | n + 1, .modeSeq, cs =>
    match cs with
    | [] => .ok (.eps, [])
    | ')' :: _ => .ok (.eps, cs)
    | '|' :: _ => .ok (.eps, cs)
    | _ =>
      match parseF n .modeItem cs with
      | .error e => .error e
      | .ok (a, rest) =>
        match parseF n .modeSeq rest with
        | .error e => .error e
        | .ok (b, rest2) => .ok (catS a b, rest2)
  | n + 1, .modeItem, cs =>
    match parseF n .modeAtom cs with
    | .error e => .error e
    | .ok (a, rest) => parseQuant a rest
  | n + 1, .modeAtom, cs =>
    match cs with
    | [] => .error ()
    | '\\' :: [] => .error ()
    | '\\' :: e :: rest =>
      match escAtom e with
      | .error u => .error u
      | .ok a => .ok (a, rest)
    | '(' :: rest =>
      let body : Except Unit (List Char) :=
        match rest with
        | '?' :: ':' :: rest2 => .ok rest2
        | '?' :: _ => .error ()
        | _ => .ok rest
      match body with
      | .error u => .error u
      | .ok body2 =>
        match parseF n .modeAlt body2 with
        | .error e => .error e
        | .ok (a, rest3) =>
          match rest3 with
          | ')' :: rest4 => .ok (a, rest4)
          | _ => .error ()
    | '.' :: rest => .ok (.anyc, rest)
    | c :: rest =>
      if badAtomStart c then .error ()
      else .ok (.chr c, rest)

/-- Parse an alternation (the body of a pattern or of a group). -/
def parseAlt (fuel : Nat) (cs : List Char) : Except Unit (Regex × List Char) :=
  parseF fuel .modeAlt cs

/-- Parse a full JavaScript pattern string, recognising an optional leading
start anchor.  Leftover input (for example an unmatched closing
parenthesis) is a construction failure, as it is for new RegExp. -/
def parseRegex (s : String) : Except Unit ParsedRegex :=
  let cs := s.data
  let (anch, cs2) :=
    match cs with
    | '^' :: rest => (true, rest)
    | _ => (false, cs)
  match parseAlt (cs2.length * 8 + 64) cs2 with
  | .error _ => .error ()
  | .ok (r, []) => .ok ⟨anch, r⟩
  | .ok (_, _ :: _) => .error ()

/-- The semantics of RegExp.test on a parsed pattern (no ignore-case flag,
used for the commit-message pattern). -/
def regexTest (pat input : String) : Except Unit Bool :=
  match parseRegex pat with
  | .error e => .error e
  | .ok p =>
    .ok (if p.anchored then matchFromHere false p.r input.data
         else reSearch false p.r input.data)

/-! ## The file pattern matcher (buildFilePattern)

Embeds buildFilePattern as it appears identically in src/src/npm-git-hooks.js
lines 55-74, the unnamed one-pass dispatcher, and lib/utils.js lines 182-203
(the latter takes the whole config and reads config.restrictions and
config.pkg.relative, building the same pattern string). -/

/-- JavaScript String.prototype.trim. -/
def jsTrim (cs : List Char) : List Char :=
  ((cs.dropWhile Char.isWhitespace).reverse.dropWhile Char.isWhitespace).reverse

/-- Strip one trailing slash, as the source does on the relative path:
relative[relative.length - 1] === a slash means drop the last character. -/
def stripTrailingSlash (s : String) : String :=
  match s.data.reverse with
  | '/' :: rest => ⟨rest.reverse⟩
  | _ => s

/-- JavaScript String.prototype.replace with a string needle replaces only
the first occurrence: the source's f.replace of one slash by an escaped
slash touches only the first slash of a folder name. -/
def replFirstSlash : List Char → List Char
  | [] => []
  | '/' :: rest => '\\' :: '/' :: rest
  | c :: rest => c :: replFirstSlash rest

/-- Folder normalisation inside buildFilePattern: ensure a trailing slash,
strip a leading dot-slash, escape the first slash for the regex source. -/
def normFolder (f : String) : String :=
  let cs := f.data
  let cs1 :=
    match cs.reverse with
    | '/' :: _ => cs
    | _ => cs ++ ['/']
  let cs2 :=
    match cs1 with
    | '.' :: '/' :: rest => rest
    | _ => cs1
  ⟨replFirstSlash cs2⟩

/-- The restrictions object of a package's npm-git-hooks configuration.
Each field is optional because the manifest may omit it; a present empty
array is distinct from an absent field (an empty array is truthy in
JavaScript, so the corresponding branch of buildFilePattern is still
taken). -/
structure Restrictions where
  folders : Option (List String)
  fileTypes : Option (List String)
  skipUsers : Option (List String)
deriving DecidableEq, Repr

/-- The exact pattern-string construction of buildFilePattern.  Note the
fileTypes separator: the source joins the list with the six characters
backslash-s, plus, backslash, bar, bar — so every extension except the last
is followed in the regex by a mandatory whitespace-plus-bar sequence. -/
def buildFilePatternString (restrictions : Option Restrictions) (relative : String) : String :=
  let rel := stripTrailingSlash relative
  let base := "(?:.+" ++ rel ++ "\\/)?"
  match restrictions with
  | none => base ++ ".+"
  | some r =>
    let p1 :=
      match r.folders with
      | none => base
      | some fs => base ++ "(?:" ++ String.intercalate "|" (fs.map normFolder) ++ ")"
    match r.fileTypes with
    | none => p1 ++ ".+"
    | some ts => p1 ++ ".+\\.(?:" ++ String.intercalate "\\s+\\||" ts ++ ")"

/-- buildFilePattern: build the pattern string and hand it to new RegExp
with the ignore-case flag; a malformed pattern string makes construction
throw (modelled as the error case). -/
def buildFilePattern (restrictions : Option Restrictions) (relative : String) :
    Except Unit ParsedRegex :=
  parseRegex (buildFilePatternString restrictions relative)

/-- Acceptance of one candidate file by the built pattern, as used at the
call sites: filePattern.exec(file.toString().trim()) is truthy exactly when
the case-insensitive unanchored search succeeds. -/
def filePatternAccepts (restrictions : Option Restrictions) (relative file : String) :
    Except Unit Bool :=
  match buildFilePattern restrictions relative with
  | .error e => .error e
  | .ok p =>
    let cs := jsTrim file.data
    .ok (if p.anchored then matchFromHere true p.r cs else reSearch true p.r cs)

/-! ## The specified matcher semantics, for comparison -/

/-- Is the first list a prefix of the second (decidable, on characters). -/
def listStartsWith : List Char → List Char → Bool
  | [], _ => true
  | _ :: _, [] => false
  | p :: ps, c :: cs => p == c && listStartsWith ps cs

/-- Does the second list end with the first. -/
def listEndsWith (p s : List Char) : Bool :=
  listStartsWith p.reverse s.reverse

/-- Characters of a string, lower-cased (the spec's matching is
case-insensitive). -/
def lowerChars (s : String) : List Char := s.data.map Char.toLower

/-- All remainders of the path obtained by removing a prefix of the form
nonempty-anything, then the marker (the normalised relative path followed
by a slash). -/
def splitsAfter (marker : List Char) (path : List Char) : List (List Char) :=
  (List.range (path.length + 1)).filterMap (fun i =>
    if 1 ≤ i && listStartsWith marker (path.drop i) then
      some ((path.drop i).drop marker.length)
    else none)

/-- Folder name normalised literally: trailing slash ensured, leading
dot-slash stripped, no regex escaping (the spec treats names as literals). -/
def specNormFolderLit (f : String) : String :=
  let cs := f.data
  let cs1 :=
    match cs.reverse with
    | '/' :: _ => cs
    | _ => cs ++ ['/']
  match cs1 with
  | '.' :: '/' :: rest => ⟨rest⟩
  | _ => ⟨cs1⟩

/-- Modelled from the spec: the acceptance predicate the specification
ascribes to the file pattern matcher — the path (or its remainder after the
optional package-relative prefix) starts with a configured folder prefix
when folders are configured, the path ends with a dot followed by a
configured extension when fileTypes are configured, and with neither
restriction any non-empty path is accepted.  Used only to compare the
specified semantics against the implementation above. -/
def specFilePatternAccepts (restrictions : Option Restrictions) (relative path : String) : Bool :=
  let p := lowerChars path
  let relNorm := lowerChars (stripTrailingSlash relative)
  let rems := p :: splitsAfter (relNorm ++ ['/']) p
  let folderOkFor := fun (fs : List String) =>
    rems.any (fun rem => fs.any (fun f => listStartsWith (lowerChars (specNormFolderLit f)) rem))
  let extOkFor := fun (ts : List String) =>
    ts.any (fun t => listEndsWith (lowerChars ("." ++ t)) p)
  match restrictions with
  | none => !(jsTrim path.data).isEmpty
  | some r =>
    match r.folders, r.fileTypes with
    | none, none => !(jsTrim path.data).isEmpty
    | fo, ft =>
      (match fo with
       | none => true
       | some fs => folderOkFor fs) &&
      (match ft with
       | none => true
       | some ts => extOkFor ts)

/-! ## Data model: manifests, packages and the shell environment -/

/-- A per-hook entry of the configuration.  The installer (src/install.js)
writes objects of the shape with a tasks key; the README and the
repository's own package.json use plain arrays of command strings.  A plain
array has no tasks property (reading it yields undefined). -/
inductive HookEntry
  | tasksObj (tasks : List String)
  | arr (tasks : List String)
deriving DecidableEq, Repr

/-- The value of the npm-git-hooks key of a manifest.  Every field the
manifests may omit is an Option; skipUsers models the top-level skip-users
key (read by src/main.js), while Restrictions.skipUsers models the
skip-users key nested inside restrictions (read by src/npm-git-hooks.js and
written by the installer). -/
structure NghConfig where
  enabled : Option Bool
  skipUsers : Option (List String)
  restrictions : Option Restrictions
  commitMsg : Option String
  hooks : List (String × HookEntry)
deriving DecidableEq, Repr

/-- A package manifest: its name and the optional npm-git-hooks section. -/
structure Manifest where
  name : String
  config : Option NghConfig
deriving DecidableEq, Repr

/-- A discovered package, as produced by findAllPackages. -/
structure Pkg where
  name : String
  relative : String
  manifest : Manifest
deriving DecidableEq, Repr

/-- Property lookup config[operation] on the configuration object. -/
def lookupHook (c : NghConfig) (op : String) : Option HookEntry :=
  (c.hooks.find? (fun h => h.1 == op)).map (fun h => h.2)

/-- The shell as observed by the dispatchers: the exit code each command
returns, and whether starting the command (process.chdir or shell.exec
itself) raises an exception.  shelljs's synchronous exec does not raise on
a non-zero exit status, it only returns the code. -/
structure ShellEnv where
  exitCode : String → Int
  execThrows : String → Bool

/-- The fileList argument of the one-pass dispatchers: hook scripts pass
either a boolean or a list of changed files. -/
inductive FileListArg
  | bool (b : Bool)
  | files (fs : List String)

/-! ## Error values and the active errorCallback (lib/handlers.js) -/

/-- The error species thrown by the repository, plus the two runtime errors
the code can hit: a TypeError from a property access on undefined and a
SyntaxError from new RegExp on a malformed pattern. -/
inductive JsErr
  | noConfig
  | noTask
  | noFile
  | noCommits
  | noStagedFile
  | runTaskErr (task pkg : String)
  | typeError
  | invalidRegex
deriving DecidableEq, Repr

/-- Is this a RunTaskError (the instanceof check of the dispatch loops). -/
def isRunTaskE : JsErr → Bool
  | .runTaskErr _ _ => true
  | _ => false

/-- Values compared by the strict-equality of the switch statement in the
active errorCallback (lib/handlers.js lines 304-323): the discriminant is
the error object, each case label evaluates an instanceof test to a
boolean.  Strict equality between an object and a boolean is always false;
two distinct objects are also never strictly equal. -/
inductive JsVal
  | vBool (b : Bool)
  | vErr (e : JsErr)
deriving DecidableEq

/-- JavaScript strict equality restricted to the values occurring in the
modelled switch: booleans compare by value; an error object never equals a
boolean, and the case labels are only ever booleans, so the object-object
case (reference equality of operands that are never the same reference
here) is false as well. -/
def jsStrictEq : JsVal → JsVal → Bool
  | .vBool a, .vBool b => a == b
  | .vErr _, .vBool _ => false
  | .vBool _, .vErr _ => false
  | .vErr _, .vErr _ => false

/-- The instanceof tests used as case labels. -/
def isNoConfigE : JsErr → Bool
  | .noConfig => true
  | _ => false

/-- Case label for NoTaskError. -/
def isNoTaskE : JsErr → Bool
  | .noTask => true
  | _ => false

/-- Case label for NoFileError. -/
def isNoFileE : JsErr → Bool
  | .noFile => true
  | _ => false

/-- Case label for NoCommitsError. -/
def isNoCommitsE : JsErr → Bool
  | .noCommits => true
  | _ => false

/-- Does the switch of the active errorCallback select one of its soft-error
cases for this error: switch (e) compares e by strict equality against the
boolean results of the instanceof case labels. -/
def matchesSomeCase (e : JsErr) : Bool :=
  jsStrictEq (.vErr e) (.vBool (isNoConfigE e)) ||
  jsStrictEq (.vErr e) (.vBool (isNoTaskE e)) ||
  jsStrictEq (.vErr e) (.vBool (isNoFileE e)) ||
  jsStrictEq (.vErr e) (.vBool (isNoCommitsE e))

/-- The exit code with which the active errorCallback terminates the
process: each error whose case matches is only logged; the first error
falling to the default branch exits with 1; if every error matched, the
trailing successCallback() call exits with 0. -/
def errorCallbackExit : List JsErr → Nat
  | [] => 0
  | e :: rest => if matchesSomeCase e then errorCallbackExit rest else 1

/-! ## The one-pass dispatcher of src/src/npm-git-hooks.js -/

/-- getPackageConfig (src/src/npm-git-hooks.js lines 38-44): return the
npm-git-hooks section unchanged, throwing NoConfigError when it is absent.
No default is applied to the enabled field. -/
def getPackageConfig (m : Manifest) : Except JsErr NghConfig :=
  match m.config with
  | none => .error .noConfig
  | some c => .ok c

/-- The reason logged when a package is skipped. -/
inductive SkipReason
  | user
  | disabled
deriving DecidableEq, Repr

/-- Result of processing one package inside the run loop. -/
inductive StepRes
  | earlyRet (r : SkipReason)
  | thrown (executed : List String) (e : JsErr)
  | normal (executed : List String)
deriving DecidableEq, Repr

/-- runTask applied in order to each task (config.tasks.forEach).  runTask
(src/src/npm-git-hooks.js lines 84-95) wraps process.chdir and shell.exec
in a try block and throws RunTaskError only when one of them raises; the
exit code shell.exec returns is never inspected, so a task that merely
exits non-zero is indistinguishable from a successful one here. -/
def execTasks (env : ShellEnv) (pkgName : String) : List String → List String × Option JsErr
  | [] => ([], none)
  | t :: ts =>
    if env.execThrows t then ([], some (.runTaskErr t pkgName))
    else
      let (ex, e) := execTasks env pkgName ts
      (t :: ex, e)

/-- runTasks (src/src/npm-git-hooks.js lines 107-115).  The caller passes
config[operation] as the config argument, so the tasks property is only
present when the entry has the installer's object shape; on a missing entry
with truthy files the property access config.tasks itself throws a
TypeError. -/
def runTasksOnePass (env : ShellEnv) (entry : Option HookEntry) (pkgName : String)
    (files : Bool) : List String × Option JsErr :=
  if files then
    match entry with
    | none => ([], some .typeError)
    | some (.arr _) => ([], some .noTask)
    | some (.tasksObj ts) =>
      if ts.isEmpty then ([], some .noTask)
      else execTasks env pkgName ts
  else ([], some .noFile)

/-- The body of the per-package iteration of run (src/src/npm-git-hooks.js
lines 130-162).  The skip-users check reads
config.restrictions with a bracket access for skip-users, so a missing
restrictions object or a missing skip-users key throws a TypeError.  Both
the skip-user branch and the disabled branch end in a return statement —
inside a plain for loop, so they return from the whole run function. -/
def onePassStep (env : ShellEnv) (user op : String) (fl : FileListArg) (pkg : Pkg) : StepRes :=
  match getPackageConfig pkg.manifest with
  | .error e => .thrown [] e
  | .ok config =>
    match config.restrictions with
    | none => .thrown [] .typeError
    | some restr =>
      match restr.skipUsers with
      | none => .thrown [] .typeError
      | some skips =>
        if skips.contains user then .earlyRet .user
        else if !(config.enabled.getD false) then .earlyRet .disabled
        else
          match buildFilePattern (some restr) pkg.relative with
          | .error _ => .thrown [] .invalidRegex
          | .ok pat =>
            let files :=
              match fl with
              | .bool b => b
              | .files fs =>
                fs.any (fun f =>
                  if pat.anchored then matchFromHere true pat.r (jsTrim f.data)
                  else reSearch true pat.r (jsTrim f.data))
            match runTasksOnePass env (lookupHook config op) pkg.name files with
            | (ex, some e) => .thrown ex e
            | (ex, none) => .normal ex

/-- How a whole one-pass run ends. -/
inductive RunOutcome
  | exited (code : Nat)
  | returned (r : SkipReason)
deriving DecidableEq, Repr

/-- The for loop of run (src/src/npm-git-hooks.js lines 130-167) plus its
epilogue.  A caught RunTaskError calls process.exit(1); every other caught
error is pushed and handed to errorCallback (which always terminates the
process itself); a return statement inside the loop ends the run with later
packages unvisited; an empty error list at the end reaches successCallback,
which exits 0. -/
def runOnePassAux (env : ShellEnv) (user op : String) (fl : FileListArg) :
    List Pkg → List (String × String) → List (String × String) × RunOutcome
  | [], acc => (acc, .exited 0)
  | p :: ps, acc =>
    match onePassStep env user op fl p with
    | .earlyRet r => (acc, .returned r)
    | .normal ex => runOnePassAux env user op fl ps (acc ++ ex.map (fun t => (p.name, t)))
    | .thrown ex e =>
      let acc2 := acc ++ ex.map (fun t => (p.name, t))
      if isRunTaskE e then (acc2, .exited 1)
      else (acc2, .exited (errorCallbackExit [e]))

/-- run (src/src/npm-git-hooks.js): returns the trace of executed tasks
(package name, task) in order, and the way the process ended. -/
def runOnePass (env : ShellEnv) (user op : String) (fl : FileListArg) (pkgs : List Pkg) :
    List (String × String) × RunOutcome :=
  runOnePassAux env user op fl pkgs []

/-! ## The older one-pass dispatcher (unnamed source file, part_000) -/

/-- Its getPackageConfig takes the hook name and returns
pkg section indexed by the hook — the hook ENTRY, not the section: the
boolean-and chain evaluates to its last operand.  A missing section or a
missing entry is falsy and throws NoConfigError; note that an empty array
entry is truthy in JavaScript and is returned. -/
def getPackageConfigP0 (m : Manifest) (hook : String) : Except JsErr HookEntry :=
  match m.config with
  | none => .error .noConfig
  | some c =>
    match lookupHook c hook with
    | none => .error .noConfig
    | some entry => .ok entry

/-- Property access entry.restrictions: a hook entry is an array or an
object with only a tasks key, so the restrictions property is undefined on
both shapes. -/
def entryRestrictions (_e : HookEntry) : Option Restrictions := none

/-- Property access entry.enabled: undefined on both entry shapes. -/
def entryEnabled (_e : HookEntry) : Option Bool := none

/-- Property access entry.tasks: the list for the installer's object shape,
undefined for a plain array. -/
def entryTasks : HookEntry → Option (List String)
  | .tasksObj ts => some ts
  | .arr _ => none

/-- Console messages of the skip branches (recorded so that a run shows
whether a package was ever reported as skipped). -/
inductive LogEvent
  | skipUser (pkg : String)
  | disabled (pkg : String)
deriving DecidableEq, Repr

/-- Result of one package inside the forEach of the older run.  Unlike the
for-loop variant, a return statement inside a forEach callback only moves
on to the next package. -/
inductive P0Step
  | skipped (l : LogEvent)
  | thrown (logs : List LogEvent) (executed : List String) (e : JsErr)
  | normal (logs : List LogEvent) (executed : List String)
deriving DecidableEq, Repr

/-- runTasks of the older variant (config here is the value its caller
passed, carrying an optional tasks property). -/
def runTasksP0 (env : ShellEnv) (tasks : Option (List String)) (pkgName : String)
    (files : Bool) : List String × Option JsErr :=
  if files then
    match tasks with
    | some (t :: ts) => execTasks env pkgName (t :: ts)
    | _ => ([], some .noTask)
  else ([], some .noFile)

/-- The per-package body of the older run (part_000 lines 128-156).  The
config variable holds the hook entry returned by its getPackageConfig, so
the very first use — the bracket access for skip-users on
config.restrictions — dereferences undefined and throws a TypeError.  The
branches below the skip check mirror the source but are unreachable: note
in particular that the disabled branch only logs and does not return, so
it would not prevent the task run that follows it. -/
def part000Step (env : ShellEnv) (user op : String) (fl : FileListArg) (pkg : Pkg) : P0Step :=
  match getPackageConfigP0 pkg.manifest op with
  | .error e => .thrown [] [] e
  | .ok config =>
    match entryRestrictions config with
    | none => .thrown [] [] .typeError
    | some restr =>
      match restr.skipUsers with
      | none => .thrown [] [] .typeError
      | some skips =>
        if skips.contains user then .skipped (.skipUser pkg.name)
        else
          let logs := if !((entryEnabled config).getD false) then [LogEvent.disabled pkg.name] else []
          match buildFilePattern (some restr) pkg.relative with
          | .error _ => .thrown logs [] .invalidRegex
          | .ok pat =>
            let files :=
              match fl with
              | .bool b => b
              | .files fs =>
                fs.any (fun f =>
                  if pat.anchored then matchFromHere true pat.r (jsTrim f.data)
                  else reSearch true pat.r (jsTrim f.data))
            match runTasksP0 env (entryTasks config) pkg.name files with
            | (ex, some e) => .thrown logs ex e
            | (ex, none) => .normal logs ex

/-- How the older run ends: a process.exit from a RunTaskError, or the
promise it returns is resolved (no collected errors) or rejected with the
collected errors. -/
inductive P0Outcome
  | exited (code : Nat)
  | resolved
  | rejected (errs : List JsErr)
deriving DecidableEq, Repr

/-- The forEach of the older run plus its epilogue: a caught RunTaskError
exits the process with 1; any other caught error is pushed and the forEach
continues with the next package; afterwards a non-empty error list rejects
the promise, an empty one resolves it. -/
def part000RunAux (env : ShellEnv) (user op : String) (fl : FileListArg) :
    List Pkg → List LogEvent → List (String × String) → List JsErr →
    List LogEvent × List (String × String) × List JsErr × P0Outcome
  | [], logs, acc, errs =>
    (logs, acc, errs, if errs.isEmpty then .resolved else .rejected errs)
  | p :: ps, logs, acc, errs =>
    match part000Step env user op fl p with
    | .skipped l => part000RunAux env user op fl ps (logs ++ [l]) acc errs
    | .normal ls ex =>
      part000RunAux env user op fl ps (logs ++ ls) (acc ++ ex.map (fun t => (p.name, t))) errs
    | .thrown ls ex e =>
      let logs2 := logs ++ ls
      let acc2 := acc ++ ex.map (fun t => (p.name, t))
      if isRunTaskE e then (logs2, acc2, errs ++ [e], .exited 1)
      else part000RunAux env user op fl ps logs2 acc2 (errs ++ [e])

/-- run of the older one-pass variant: log trace, executed-task trace,
collected errors and outcome. -/
def part000Run (env : ShellEnv) (user op : String) (fl : FileListArg) (pkgs : List Pkg) :
    List LogEvent × List (String × String) × List JsErr × P0Outcome :=
  part000RunAux env user op fl pkgs [] [] []

/-! ## The pipeline dispatcher of src/src/main.js -/

/-- The environment the main.js pipeline observes: command exit codes as
reported to the shell.exec callback, and the last commit message read from
the repository. -/
structure MainEnv where
  exitCode : String → Int
  commitMessage : String

/-- A configuration as produced by mapPackageConfig: the section with the
package attached (config.pkg = pkg). -/
structure MappedConfig where
  base : NghConfig
  pkg : Pkg
deriving DecidableEq, Repr

/-- mapPackageConfig (src/src/main.js lines 40-49): throw NoConfigError
when the section is absent; otherwise attach the package and default the
enabled field to true when it is undefined. -/
def mapPackageConfig (pkg : Pkg) : Except JsErr MappedConfig :=
  match pkg.manifest.config with
  | none => .error .noConfig
  | some c => .ok ⟨{ c with enabled := some (c.enabled.getD true) }, pkg⟩

/-- skipPackage (src/src/main.js lines 61-72): indexOf on the top-level
skip-users list — a TypeError when the key is absent; a listed user or a
non-true enabled flag filters the package out of the pipeline (result
false); otherwise the package is kept. -/
def skipPackage (user : String) (mc : MappedConfig) : Except JsErr Bool :=
  match mc.base.skipUsers with
  | none => .error .typeError
  | some l =>
    if l.contains user then .ok false
    else if !(mc.base.enabled.getD false) then .ok false
    else .ok true

/-- checkCommitMsg (src/src/main.js lines 106-120): with no configured
pattern the promise resolves; with one, the last commit message is tested
— a failing test rejects with RunTaskError for the pseudo-task commit-msg,
and a malformed pattern makes new RegExp throw. -/
def checkCommitMsg (env : MainEnv) (mc : MappedConfig) : Except JsErr Unit :=
  match mc.base.commitMsg with
  | none => .ok ()
  | some p =>
    match regexTest p env.commitMessage with
    | .error _ => .error .invalidRegex
    | .ok true => .ok ()
    | .ok false => .error (.runTaskErr "commit-msg" mc.pkg.name)

/-- Promise.each over the task list with runTask (src/src/main.js lines
132-145): tasks run strictly in order; this runTask passes a callback to
shell.exec and rejects with RunTaskError at the first non-zero exit code,
stopping the chain.  The returned list is the trace of tasks that were
started, including a failing one. -/
def promiseEach (env : MainEnv) (pkgName : String) :
    List String → List String × Except JsErr Unit
  | [] => ([], .ok ())
  | t :: ts =>
    if env.exitCode t == 0 then
      let (ex, r) := promiseEach env pkgName ts
      (t :: ex, r)
    else ([t], .error (.runTaskErr t pkgName))

/-- runTasks (src/src/main.js lines 155-165): the commit-msg operation is
answered by checkCommitMsg alone, before the task list is even consulted;
otherwise config[operation] must be a non-empty array (an installer-shaped
object has a truthy value but an undefined length, hence falsy) or the
promise rejects with NoTaskError. -/
def runTasksMain (env : MainEnv) (mc : MappedConfig) (op : String) :
    List String × Except JsErr Unit :=
  if op == "commit-msg" then ([], checkCommitMsg env mc)
  else
    match lookupHook mc.base op with
    | some (.arr (t :: ts)) => promiseEach env mc.pkg.name (t :: ts)
    | some (.arr []) => ([], .error .noTask)
    | some (.tasksObj _) => ([], .error .noTask)
    | none => ([], .error .noTask)

/-! ## Package discovery (lib/utils.js scandir, lines 137-156) -/

/-- A directory listing: files and subdirectories with a readability flag
on each directory (readdirSync raises on a directory the process cannot
read). -/
inductive FSEntries
  | nil
  | consFile (name : String) (rest : FSEntries)
  | consDir (name : String) (readable : Bool) (sub : FSEntries) (rest : FSEntries)
deriving DecidableEq, Repr

/-- The recursive helper of scandir: for each entry, a non-excluded
subdirectory is recursed into (read raises on an unreadable one and
nothing catches it), any other entry whose name matches the include
pattern pushes the current directory path.  Tests use the unanchored
case-insensitive search of the two regexes scandir builds. -/
def scanEntries (pat exc : Regex) (dp : String) : FSEntries → Except Unit (List String)
  | .nil => .ok []
  | .consFile name rest =>
    match scanEntries pat exc dp rest with
    | .error e => .error e
    | .ok tl => .ok ((if reSearch true pat name.data then [dp] else []) ++ tl)
  | .consDir name readable sub rest =>
    if reSearch true exc name.data then
      match scanEntries pat exc dp rest with
      | .error e => .error e
      | .ok tl => .ok ((if reSearch true pat name.data then [dp] else []) ++ tl)
    else if readable then
      match scanEntries pat exc (dp ++ name ++ "/") sub with
      | .error e => .error e
      | .ok here =>
        match scanEntries pat exc dp rest with
        | .error e => .error e
        | .ok tl => .ok (here ++ tl)
    else .error ()

/-- scandir as invoked by findAllPackages: include pattern package.json,
exclude pattern node_modules, starting from the repository root (given
here together with the root's own listing; getRootDir has already read the
root successfully).  The two regexes are built from the filter lists
exactly as the source does, by wrapping the joined lists in a group. -/
def scandirModel (root : String) (entries : FSEntries) : Except Unit (List String) :=
  let rootd :=
    match root.data.reverse with
    | '/' :: _ => root
    | _ => root ++ "/"
  match parseRegex "(package.json)", parseRegex "(node_modules)" with
  | .ok p, .ok x => scanEntries p.r x.r rootd entries
  | _, _ => .error ()

/-- Are all directories of a listing readable (recursively). -/
def allReadable : FSEntries → Bool
  | .nil => true
  | .consFile _ rest => allReadable rest
  | .consDir _ readable sub rest => readable && allReadable sub && allReadable rest

/-! ## getCommitedFiles (lib/git.js lines 266-296) -/

/-- getCommitedFiles wraps its whole body in a try block whose catch prints
the error and calls process.exit(1).  The NoCommitsError thrown on an empty
commit range is therefore caught by the function itself and turned into a
process exit with code 1.  The commit list and the diff output are the
results of the underlying git commands, passed in here; the error case
carries the exit code of the process.exit the catch performs. -/
def getCommitedFiles (commits diffFiles : List String) : Except Nat (List String) :=
  if commits.isEmpty then .error 1 else .ok diffFiles

/-! ## Concrete fixtures used by the claim theorems -/

/-- Restrictions with no folder or file-type limits and an empty skip list
nested inside, the shape the installer writes. -/
def emptyRestr : Restrictions := ⟨none, none, some []⟩

/-- A manifest section with the installer's entry shape and one pre-push
task list. -/
def cfgWithTasks (tasks : List String) : NghConfig :=
  ⟨some true, some [], some emptyRestr, none, [("pre-push", .tasksObj tasks)]⟩

/-- A root-level package with the given manifest section. -/
def mkPkg (n : String) (c : Option NghConfig) : Pkg := ⟨n, ".", ⟨n, c⟩⟩

/-- A shell in which the command exit 1 returns code 1, every other command
returns 0, and nothing raises. -/
def envStd : ShellEnv := ⟨fun t => if t == "exit 1" then 1 else 0, fun _ => false⟩

/-- Package whose single pre-push task exits non-zero. -/
def pkgD : Pkg := mkPkg "D" (some (cfgWithTasks ["exit 1"]))

/-- Package after it in discovery order, with a succeeding task. -/
def pkgE : Pkg := mkPkg "E" (some (cfgWithTasks ["echo E"]))

/-- Package whose manifest has no npm-git-hooks section. -/
def pkgNoCfg : Pkg := mkPkg "N" none

/-- Package that lists alice in skip-users (nested, as the one-pass variant
reads it) and is also disabled. -/
def pkgSkipAlice : Pkg :=
  mkPkg "S" (some ⟨some false, some [], some ⟨none, none, some ["alice"]⟩, none,
    [("pre-push", .tasksObj ["echo S"])]⟩)

/-- Package with enabled set to false and a configured pre-push task. -/
def pkgDisabled : Pkg :=
  mkPkg "C" (some ⟨some false, some [], some emptyRestr, none, [("pre-push", .tasksObj ["t"])]⟩)

/-- The restrictions of the README's own configuration example. -/
def readmeRestr : Restrictions := ⟨some ["src/app"], some ["js", "html"], none⟩

/-- Restrictions with a single file type. -/
def jsOnlyRestr : Restrictions := ⟨none, some ["js"], none⟩

/-- Restrictions whose folder name contains an opening parenthesis. -/
def parenRestr : Restrictions := ⟨some ["("], none, none⟩

/-- Restrictions whose folder name contains a dot. -/
def dotRestr : Restrictions := ⟨some ["a.b"], none, none⟩

/-- A package used by the commit-message fixtures. -/
def demoPkg : Pkg := mkPkg "demo" none

/-- A mapped config with the spec's example commit-message pattern. -/
def mcJira : MappedConfig :=
  ⟨⟨some true, some [], none, some "^JIRA-\\d+", [("pre-commit", .arr ["npm test"])]⟩, demoPkg⟩

/-- A main environment whose last commit message does not match it. -/
def envFixBug : MainEnv := ⟨fun _ => 0, "fix bug"⟩

/-- A manifest whose section omits the enabled field. -/
def manifestNoEnabled : Manifest :=
  ⟨"P", some ⟨none, some [], some emptyRestr, none, [("pre-push", .tasksObj ["t"])]⟩⟩

/-- The package carrying that manifest. -/
def pkgNoEnabled : Pkg := ⟨"P", ".", manifestNoEnabled⟩

/-- A directory tree with one unreadable subdirectory between two packages. -/
def treeBad : FSEntries :=
  .consDir "a" true (.consFile "package.json" .nil)
    (.consDir "lockd" false .nil (.consFile "package.json" .nil))

/-- The same tree with every directory readable. -/
def treeGood : FSEntries :=
  .consDir "a" true (.consFile "package.json" .nil)
    (.consDir "lockd" true .nil (.consFile "package.json" .nil))

/-- A minimal configuration: only enabled is present. -/
def minimalCfg : NghConfig := ⟨some true, none, none, none, []⟩

/-- That configuration after mapPackageConfig attached a package. -/
def minimalMc : MappedConfig := ⟨minimalCfg, mkPkg "M" (some minimalCfg)⟩

/-! ## Helper lemmas -/

/-- On a listing whose directories are all readable, the scandir recursion
never hits its error branch. -/
theorem scanEntries_readable_ok (pat exc : Regex) :
    ∀ (dp : String) (es : FSEntries), allReadable es = true →
      ∃ l, scanEntries pat exc dp es = .ok l := by
  intro dp es
  induction es generalizing dp with
  | nil => intro _; exact ⟨[], rfl⟩
  | consFile name rest ih =>
    intro h
    obtain ⟨l, hl⟩ := ih dp h
    exact ⟨(if reSearch true pat name.data then [dp] else []) ++ l, by simp [scanEntries, hl]⟩
  | consDir name readable sub rest ihsub ihrest =>
    intro h
    simp only [allReadable, Bool.and_eq_true] at h
    obtain ⟨⟨hr, hs⟩, hrest⟩ := h
    by_cases hx : reSearch true exc name.data = true
    · obtain ⟨l, hl⟩ := ihrest dp hrest
      exact ⟨(if reSearch true pat name.data then [dp] else []) ++ l,
        by simp [scanEntries, hx, hl]⟩
    · obtain ⟨ls, hls⟩ := ihsub (dp ++ name ++ "/") hs
      obtain ⟨l, hl⟩ := ihrest dp hrest
      exact ⟨ls ++ l, by simp [scanEntries, hx, hr, hls, hl]⟩

/-! ## Claim theorems -/

/-- C1.  The claim states that a task exiting non-zero in package k stops
the dispatcher before any task of a later package and makes the process
terminate non-zero.  Evaluating the dispatcher on a run in which package
D's only task exits with code 1 shows the opposite: the one-pass runTask
never inspects the exit code shell.exec returns (only a thrown exception
produces RunTaskError), so package E's task still executes and the run
reaches successCallback, which exits 0. -/
theorem c1_nonzero_exit_not_failfast :
    envStd.exitCode "exit 1" = 1 ∧
    runOnePass envStd "bob" "pre-push" (.bool true) [pkgD, pkgE] =
      ([("D", "exit 1"), ("E", "echo E")], .exited 0) :=
  ⟨rfl, rfl⟩

/-- C2.  The claim states that soft outcomes such as NoConfig are only
logged and the run continues with exit code zero.  In the active
errorCallback the switch compares the error object against the boolean
results of its instanceof case labels, so no case can ever match: every
soft error falls to the default branch and exits the process with 1, and a
package after the soft failure is never reached.  In addition,
getCommitedFiles catches its own NoCommitsError and exits 1. -/
theorem c2_soft_outcome_exits_process :
    (∀ e, matchesSomeCase e = false) ∧
    runOnePass envStd "bob" "pre-push" (.bool true) [pkgNoCfg, pkgE] = ([], .exited 1) ∧
    (∀ fs, getCommitedFiles [] fs = .error 1) :=
  ⟨fun e => by cases e <;> rfl, rfl, fun _ => rfl⟩

/-- C3.  The claim states the built predicate accepts a path exactly when
it starts with a configured folder prefix and ends with a configured
extension.  The implementation diverges in both directions: with the
README's own restrictions (folders src/app, fileTypes js and html) the
file src/app/x.js is rejected, because the fileTypes join separator forces
every extension except the last to be followed by whitespace and a bar in
the regex; and with fileTypes js alone the file a.jsx is accepted, because
the pattern is unanchored and matches the a.js substring. -/
theorem c3_matcher_vs_spec :
    filePatternAccepts (some readmeRestr) "." "src/app/x.js" = .ok false ∧
    specFilePatternAccepts (some readmeRestr) "." "src/app/x.js" = true ∧
    filePatternAccepts (some jsOnlyRestr) "." "a.jsx" = .ok true ∧
    specFilePatternAccepts (some jsOnlyRestr) "." "a.jsx" = false :=
  ⟨rfl, rfl, rfl, rfl⟩

/-- C4.  The claim states that a package whose skip-users list contains the
current user is skipped and processing continues with the next package.
The skip branch of the one-pass run ends in a return statement inside a
plain for loop, so the whole run function returns: with alice listed by
package S, package E after it is never processed (no task of any package
executes).  The reason user also shows the skip fires before the enabled
check (S is disabled as well). -/
theorem c4_skip_user_aborts_dispatch :
    runOnePass envStd "alice" "pre-push" (.bool true) [pkgSkipAlice, pkgE] =
      ([], .returned .user) :=
  rfl

/-- C5.  The claim states a package with enabled false is recorded as
Skipped and its tasks never run.  In the older one-pass variant the config
variable holds the hook entry (its getPackageConfig indexes the section by
the hook name), so the skip-users lookup dereferences undefined and throws
a TypeError before the enabled flag is ever consulted: the run ends with a
collected TypeError, no skip message, and no Skipped record. -/
theorem c5_disabled_package_part000 :
    (pkgDisabled.manifest.config.map fun c => c.enabled) = some (some false) ∧
    part000Run envStd "bob" "pre-push" (.bool true) [pkgDisabled] =
      ([], [], [.typeError], .rejected [.typeError]) :=
  ⟨rfl, rfl⟩

/-- C6.  For the commit-msg operation, runTasks consults checkCommitMsg
before any task list: no task is ever started; with no configured pattern
the check succeeds; with a pattern it succeeds exactly when the last commit
message tests true, and otherwise fails with RunTaskError for the
pseudo-task commit-msg. -/
theorem c6_commit_msg_gate (env : MainEnv) (mc : MappedConfig) :
    (runTasksMain env mc "commit-msg").1 = [] ∧
    (mc.base.commitMsg = none → (runTasksMain env mc "commit-msg").2 = .ok ()) ∧
    (∀ p, mc.base.commitMsg = some p →
      (regexTest p env.commitMessage = .ok true →
        (runTasksMain env mc "commit-msg").2 = .ok ()) ∧
      (regexTest p env.commitMessage = .ok false →
        (runTasksMain env mc "commit-msg").2 =
          .error (.runTaskErr "commit-msg" mc.pkg.name))) := by
  have hrt : runTasksMain env mc "commit-msg" = ([], checkCommitMsg env mc) := rfl
  refine ⟨by rw [hrt], ?_, ?_⟩
  · intro h
    rw [hrt]
    show checkCommitMsg env mc = .ok ()
    unfold checkCommitMsg
    rw [h]
  · intro p hp
    constructor
    · intro ht
      rw [hrt]
      show checkCommitMsg env mc = .ok ()
      unfold checkCommitMsg
      simp only [hp, ht]
    · intro ht
      rw [hrt]
      show checkCommitMsg env mc = .error (.runTaskErr "commit-msg" mc.pkg.name)
      unfold checkCommitMsg
      simp only [hp, ht]

/-- Witness for C6 at the spec's own example: pattern JIRA with a digit,
message fix bug — the check rejects with RunTaskError and no task ran. -/
theorem c6_commit_msg_gate_witness :
    (runTasksMain envFixBug mcJira "commit-msg").1 = [] ∧
    (runTasksMain envFixBug mcJira "commit-msg").2 =
      .error (.runTaskErr "commit-msg" "demo") :=
  ⟨(c6_commit_msg_gate envFixBug mcJira).1,
   ((c6_commit_msg_gate envFixBug mcJira).2.2 "^JIRA-\\d+" rfl).2 (by decide)⟩

/-- C7 counterexample.  The claim states the resolved config has enabled
true whenever the field is omitted.  The one-pass resolver getPackageConfig
returns the section unchanged, so the resolved enabled is still undefined,
and the one-pass dispatcher then takes its disabled branch for such a
package: the claim fails on this resolver. -/
theorem c7_no_default_counterexample :
    (getPackageConfig manifestNoEnabled).map (fun c => c.enabled) = .ok none ∧
    onePassStep envStd "bob" "pre-push" (.bool true) pkgNoEnabled = .earlyRet .disabled :=
  ⟨rfl, rfl⟩

/-- C7 amended.  The resolver of src/main.js behaves as claimed: a missing
section yields NoConfigError, and on success the enabled field defaults to
true when the manifest omits it. -/
theorem c7_default_enabled (pkg : Pkg) :
    (pkg.manifest.config = none → mapPackageConfig pkg = .error .noConfig) ∧
    (∀ c, pkg.manifest.config = some c →
      mapPackageConfig pkg = .ok ⟨{ c with enabled := some (c.enabled.getD true) }, pkg⟩ ∧
      (c.enabled = none →
        (mapPackageConfig pkg).map (fun mc => mc.base.enabled) = .ok (some true))) := by
  constructor
  · intro h
    unfold mapPackageConfig
    rw [h]
  · intro c hc
    have h1 : mapPackageConfig pkg = .ok ⟨{ c with enabled := some (c.enabled.getD true) }, pkg⟩ := by
      unfold mapPackageConfig
      rw [hc]
    refine ⟨h1, ?_⟩
    intro he
    rw [h1, he]
    rfl

/-- Witness for C7 amended at the manifest omitting enabled. -/
theorem c7_default_enabled_witness :
    (mapPackageConfig pkgNoEnabled).map (fun mc => mc.base.enabled) = .ok (some true) :=
  ((c7_default_enabled pkgNoEnabled).2 _ rfl).2 rfl

/-- C8 counterexample.  The claim states a directory that cannot be read is
treated as empty and never aborts discovery.  On a tree whose middle
subdirectory is unreadable, scandir propagates the read error and the whole
discovery fails; making that directory readable lets discovery return the
other packages, showing the unreadable directory alone was the cause. -/
theorem c8_unreadable_dir_aborts :
    scandirModel "/repo" treeBad = .error () ∧
    scandirModel "/repo" treeGood = .ok ["/repo/a/", "/repo/"] :=
  ⟨rfl, rfl⟩

/-- C8 amended.  Discovery propagates read failures: an unreadable
directory aborts it with an error; when every directory of the tree is
readable, discovery succeeds. -/
theorem c8_readable_discovery_succeeds (root : String) (es : FSEntries)
    (h : allReadable es = true) : ∃ l, scandirModel root es = .ok l := by
  unfold scandirModel
  cases hp : parseRegex "(package.json)" with
  | error u =>
    cases u
    exact absurd hp (by decide)
  | ok p =>
    cases hq : parseRegex "(node_modules)" with
    | error u =>
      cases u
      exact absurd hq (by decide)
    | ok x =>
      exact scanEntries_readable_ok p.r x.r _ es h

/-- Witness for C8 amended on the readable tree. -/
theorem c8_readable_discovery_succeeds_witness :
    allReadable treeGood = true ∧ ∃ l, scandirModel "/repo" treeGood = .ok l :=
  ⟨by decide, c8_readable_discovery_succeeds "/repo" treeGood (by decide)⟩

/-- C9.  Matcher construction interpolates folder names and the relative
path unescaped into the regex source: a folder containing an opening
parenthesis makes new RegExp throw, and a folder containing a dot yields a
predicate accepting axb/f although literal-prefix matching rejects it. -/
theorem c9_metachar_injection :
    buildFilePattern (some parenRestr) "." = .error () ∧
    filePatternAccepts (some dotRestr) "." "axb/f" = .ok true ∧
    specFilePatternAccepts (some dotRestr) "." "axb/f" = false :=
  ⟨rfl, rfl, rfl⟩

/-- C10.  The skip rule requires the skip-users key: the pipeline's
skipPackage throws a TypeError whenever the top-level list is absent, and
the one-pass per-package step throws a TypeError whenever the restrictions
object is absent — a minimal config is not processed normally. -/
theorem c10_skip_requires_key :
    (∀ (u : String) (mc : MappedConfig), mc.base.skipUsers = none →
      skipPackage u mc = .error .typeError) ∧
    (∀ (env : ShellEnv) (u op : String) (fl : FileListArg) (pkg : Pkg) (c : NghConfig),
      pkg.manifest.config = some c → c.restrictions = none →
      onePassStep env u op fl pkg = .thrown [] .typeError) := by
  constructor
  · intro u mc h
    unfold skipPackage
    rw [h]
  · intro env u op fl pkg c h1 h2
    simp only [onePassStep, getPackageConfig, h1, h2]

/-- Witness for C10 at a minimal config lacking skip-users and
restrictions. -/
theorem c10_skip_requires_key_witness :
    skipPackage "bob" minimalMc = .error .typeError ∧
    onePassStep envStd "bob" "pre-push" (.bool true) (mkPkg "M" (some minimalCfg)) =
      .thrown [] .typeError :=
  ⟨c10_skip_requires_key.1 "bob" minimalMc rfl,
   c10_skip_requires_key.2 envStd "bob" "pre-push" (.bool true) _ minimalCfg rfl rfl⟩

end NpmGitHooks





